import Mathlib

/-!
# Device fingerprint collector: embedding of `main.go`

The program (`src/main.go`) runs a handful of external commands, parses their
text output with functions of Go's `strings` package, and prints a report.

Embedding:

* a Go `string` is an immutable byte sequence: `GoString := List Nat`
  (one `Nat` per byte);
* the functions of Go's standard library that `main.go` calls (`strings.Split`,
  `strings.Contains`, `strings.TrimSpace`, `strings.Fields`, `strings.Trim`,
  `strings.HasPrefix`, `net.HardwareAddr.String`, `fmt.Println`) are modelled
  after their Go implementation, on bytes, including UTF-8 decoding;
* everything the program reads from the machine is gathered in a `World`:
  `runtime.GOOS`, the outcome of every external command, the outcome of
  `net.Interfaces()` and of `os.Hostname()`;
* a run-time panic (slice bounds out of range) is an explicit `none`.
-/

namespace Fingerprint

/-- A Go string: a sequence of bytes. -/
abbrev GoString := List Nat

/-- The bytes of an ASCII string literal of the source. -/
def lit (s : String) : GoString := s.data.map Char.toNat

/-! ## Package `unicode/utf8` -/

namespace utf8

def RuneError : Nat := 0xFFFD
def RuneSelf : Nat := 0x80
def UTFMax : Nat := 4

/-- Table `first` together with `acceptRanges`: for a leading byte, the length
of the sequence and the accepted range of the second byte; `none` is the
entry `xx` (invalid leading byte). Bytes below `RuneSelf` (entry `as`) are
handled by the caller. -/
def first (b : Nat) : Option (Nat × Nat × Nat) :=
  if b < 0xC2 then none
  else if b < 0xE0 then some (2, 0x80, 0xBF)
  else if b = 0xE0 then some (3, 0xA0, 0xBF)
  else if b < 0xED then some (3, 0x80, 0xBF)
  else if b = 0xED then some (3, 0x80, 0x9F)
  else if b < 0xF0 then some (3, 0x80, 0xBF)
  else if b = 0xF0 then some (4, 0x90, 0xBF)
  else if b < 0xF4 then some (4, 0x80, 0xBF)
  else if b = 0xF4 then some (4, 0x80, 0x8F)
  else none

/-- The function `utf8.DecodeRuneInString`: the first rune of `s` and its width in bytes;
`(RuneError, 0)` for the empty string and `(RuneError, 1)` for an invalid
encoding. -/
def DecodeRuneInString : GoString → Nat × Nat
  | [] => (RuneError, 0)
  | s0 :: rest =>
    if s0 < RuneSelf then (s0, 1) else
    match first s0 with
    | none => (RuneError, 1)
    | some (sz, lo, hi) =>
      if (s0 :: rest).length < sz then (RuneError, 1) else
      let s1 := rest.getD 0 0
      if s1 < lo || hi < s1 then (RuneError, 1) else
      if sz ≤ 2 then (((s0 &&& 0x1F) <<< 6) ||| (s1 &&& 0x3F), 2) else
      let s2 := rest.getD 1 0
      if s2 < 0x80 || 0xBF < s2 then (RuneError, 1) else
      if sz ≤ 3 then
        (((s0 &&& 0x0F) <<< 12) ||| ((s1 &&& 0x3F) <<< 6) ||| (s2 &&& 0x3F), 3) else
      let s3 := rest.getD 2 0
      if s3 < 0x80 || 0xBF < s3 then (RuneError, 1) else
      (((s0 &&& 0x07) <<< 18) ||| ((s1 &&& 0x3F) <<< 12) ||| ((s2 &&& 0x3F) <<< 6)
        ||| (s3 &&& 0x3F), 4)

/-- The function `utf8.RuneStart`: the byte is not a continuation byte. -/
def RuneStart (b : Nat) : Bool := b &&& 0xC0 != 0x80

/-- The backward scan of `DecodeLastRuneInString`:
`for start--; start >= lim; start-- { if RuneStart(s[start]) { break } }`,
entered with `start` already decremented. The first argument bounds the number
of iterations; the loop runs at most `UTFMax` times since `lim ≥ len(s) - UTFMax`. -/
def scanBack (s : GoString) (lim : Int) : Nat → Int → Int
  | 0, start => start
  | n + 1, start =>
    if start ≥ lim then
      if RuneStart (s.getD start.toNat 0) then start else scanBack s lim n (start - 1)
    else start

/-- The function `utf8.DecodeLastRuneInString`: the last rune of `s` and its width. -/
def DecodeLastRuneInString (s : GoString) : Nat × Nat :=
  let stop := s.length
  if stop = 0 then (RuneError, 0) else
  let r := s.getD (stop - 1) 0
  if r < RuneSelf then (r, 1) else
  let lim : Int := max 0 ((stop : Int) - UTFMax)
  let start := scanBack s lim UTFMax ((stop : Int) - 2)
  let start := if start < 0 then 0 else start.toNat
  let d := DecodeRuneInString (s.drop start)
  if start + d.2 ≠ stop then (RuneError, 1) else d

/-- The iteration `for i, r := range s` over a string: the byte index and the
value of every rune, an invalid byte giving `RuneError` and advancing by one.
The third argument counts the bytes of the current rune still to be skipped. -/
def rangeAux : GoString → Nat → Nat → List (Nat × Nat)
  | [], _, _ => []
  | _ :: rest, i, skip + 1 => rangeAux rest (i + 1) skip
  | c :: rest, i, 0 =>
    let d := DecodeRuneInString (c :: rest)
    (i, d.1) :: rangeAux rest (i + 1) (d.2 - 1)

def rangeString (s : GoString) : List (Nat × Nat) := rangeAux s 0 0

end utf8

/-! ## Package `unicode` -/

namespace unicode

/-- The function `unicode.IsSpace`: the Latin-1 spaces `'\t' '\n' '\v' '\f' '\r' ' '`,
U+0085, U+00A0, and the other code points of the property `White_Space`. -/
def IsSpace (r : Nat) : Bool :=
  if r ≤ 0xFF then
    r = 0x09 || r = 0x0A || r = 0x0B || r = 0x0C || r = 0x0D || r = 0x20
      || r = 0x85 || r = 0xA0
  else
    r = 0x1680 || (0x2000 ≤ r && r ≤ 0x200A) || (0x2028 ≤ r && r ≤ 0x2029)
      || r = 0x202F || r = 0x205F || r = 0x3000

end unicode

/-! ## Package `strings` -/

namespace strings

/-- The function `strings.HasPrefix`. -/
def HasPrefix (s pre : GoString) : Bool := pre.isPrefixOf s

/-- The function `strings.Contains(s, substr)`: `substr` occurs in `s`. -/
def Contains : GoString → GoString → Bool
  | [], substr => substr.isPrefixOf []
  | c :: rest, substr => substr.isPrefixOf (c :: rest) || Contains rest substr

/-- The loop of `genSplit` for a non-empty separator: cut at each leftmost
occurrence of `sep` and go on after it. `skip` counts the bytes of a separator
just found that remain to be stepped over; `cur` is the piece being read. -/
def splitAux (sep : GoString) : GoString → Nat → GoString → List GoString
  | [], _, cur => [cur]
  | _ :: rest, skip + 1, cur => splitAux sep rest skip cur
  | c :: rest, 0, cur =>
    if sep.isPrefixOf (c :: rest) then cur :: splitAux sep rest (sep.length - 1) []
    else splitAux sep rest 0 (cur ++ [c])

/-- The function `explode` used by `Split` for an empty separator: one piece
per UTF-8 sequence. (No call of `main.go` passes an empty separator.) -/
def explode (s : GoString) : List GoString :=
  let starts := (utf8.rangeString s).map Prod.fst
  (starts.zip (starts.drop 1 ++ [s.length])).map fun p => (s.take p.2).drop p.1

/-- The function `strings.Split(s, sep)`. -/
def Split (s sep : GoString) : List GoString :=
  if sep = [] then explode s else splitAux sep s 0 []

/-- The function `indexFunc(s, f, truth)`: byte index of the first rune `r` of `s` with
`f(r) == truth`; `none` stands for `-1`. -/
def indexFunc (s : GoString) (f : Nat → Bool) (truth : Bool) : Option Nat :=
  ((utf8.rangeString s).find? fun p => f p.2 == truth).map Prod.fst

/-- The loop of `lastIndexFunc`, on the reversed prefix `s[0:i]`:
`r, size := utf8.DecodeLastRuneInString(s[0:i]); i -= size;
if f(r) == truth { return i }`. -/
def lastIndexAux (f : Nat → Bool) (truth : Bool) : GoString → Nat → Option Nat
  | [], _ => none
  | _ :: rest, skip + 1 => lastIndexAux f truth rest skip
  | c :: rest, 0 =>
    let d := utf8.DecodeLastRuneInString (c :: rest).reverse
    if f d.1 == truth then some ((c :: rest).length - d.2)
    else lastIndexAux f truth rest (d.2 - 1)

/-- The function `lastIndexFunc(s, f, truth)`; `none` stands for `-1`. -/
def lastIndexFunc (s : GoString) (f : Nat → Bool) (truth : Bool) : Option Nat :=
  lastIndexAux f truth s.reverse 0

/-- The function `strings.TrimLeftFunc`. -/
def TrimLeftFunc (s : GoString) (f : Nat → Bool) : GoString :=
  match indexFunc s f false with
  | none => []
  | some i => s.drop i

/-- The function `strings.TrimRightFunc`. -/
def TrimRightFunc (s : GoString) (f : Nat → Bool) : GoString :=
  match lastIndexFunc s f false with
  | some i =>
    if s.getD i 0 ≥ utf8.RuneSelf then s.take (i + (utf8.DecodeRuneInString (s.drop i)).2)
    else s.take (i + 1)
  | none => s.take 0

/-- The function `strings.TrimFunc`. -/
def TrimFunc (s : GoString) (f : Nat → Bool) : GoString :=
  TrimRightFunc (TrimLeftFunc s f) f

/-- The function `strings.TrimSpace(s)`: `s` without leading and trailing white space, as
defined by Unicode. Go's implementation handles ASCII bytes on a fast path and
falls back to `TrimFunc(s, unicode.IsSpace)`, which is the result in all cases. -/
def TrimSpace (s : GoString) : GoString := TrimFunc s unicode.IsSpace

/-- State of the loop of `FieldsFunc`: the spans recorded so far and the start
of the current field (`none` when `start < 0`). -/
structure FieldsState where
  spans : List (Nat × Nat)
  start : Option Nat

/-- One iteration of `for end, rune := range s` in `FieldsFunc`. -/
def fieldsStep (f : Nat → Bool) (st : FieldsState) (p : Nat × Nat) : FieldsState :=
  if f p.2 then
    match st.start with
    | some start => { spans := st.spans ++ [(start, p.1)], start := none }
    | none => st
  else
    match st.start with
    | none => { st with start := some p.1 }
    | some _ => st

/-- The function `strings.FieldsFunc`. -/
def FieldsFunc (s : GoString) (f : Nat → Bool) : List GoString :=
  let st := (utf8.rangeString s).foldl (fieldsStep f) { spans := [], start := none }
  let spans :=
    match st.start with
    | some start => st.spans ++ [(start, s.length)]
    | none => st.spans
  spans.map fun sp => (s.take sp.2).drop sp.1

/-- The function `strings.Fields(s)`: the pieces of `s` between runs of white space. Go's
implementation has a fast path for ASCII input and otherwise returns
`FieldsFunc(s, unicode.IsSpace)`, which is the result in all cases. -/
def Fields (s : GoString) : List GoString := FieldsFunc s unicode.IsSpace

/-- The functions `trimLeftByte` and `trimLeftASCII`: drop the leading bytes that are in `cutset`. -/
def trimLeftBytes (s cutset : GoString) : GoString := s.dropWhile fun b => cutset.contains b

/-- The functions `trimRightByte` and `trimRightASCII`: drop the trailing bytes that are in `cutset`. -/
def trimRightBytes (s cutset : GoString) : GoString :=
  (s.reverse.dropWhile fun b => cutset.contains b).reverse

/-- The function `strings.Trim(s, cutset)` for a cutset of ASCII bytes (the program's only
call passes the one-byte cutset `"\""`): leading and trailing bytes of `s` that
are in `cutset` are removed. -/
def Trim (s cutset : GoString) : GoString :=
  trimLeftBytes (trimRightBytes s cutset) cutset

end strings

/-! ## Packages `net` and `fmt` -/

namespace net

def FlagUp : Nat := 1
def FlagLoopback : Nat := 4

/-- The fields of `net.Interface` that the program reads. -/
structure Interface where
  Flags : Nat
  HardwareAddr : List Nat

/-- The table `hexDigit = "0123456789abcdef"`. -/
def hexDigit : GoString := lit "0123456789abcdef"

/-- The method `net.HardwareAddr.String`: two lower-case hexadecimal digits per byte,
the bytes separated by colons; the empty address gives `""`. -/
def HardwareAddr.String : List Nat → GoString
  | [] => []
  | [b] => [hexDigit.getD (b >>> 4) 0, hexDigit.getD (b &&& 0xF) 0]
  | b :: rest =>
    hexDigit.getD (b >>> 4) 0 :: hexDigit.getD (b &&& 0xF) 0 :: 58 :: HardwareAddr.String rest

end net

namespace fmt

/-- What `fmt.Println` writes for string operands: the operands separated by
one space, and a newline. -/
def Println (args : List GoString) : GoString :=
  (lit " ").intercalate args ++ lit "\n"

end fmt

/-! ## The machine -/

/-- Everything `main.go` obtains from its environment. -/
structure World where
  /-- The constant `runtime.GOOS`. -/
  GOOS : GoString
  /-- The outcome of `exec.Command(cmd, args...).Run()` with `Stdout` captured:
  `some out` when `Run` returns no error, `none` when it returns an error
  (tool missing, non-zero exit, unreadable file). -/
  exec : GoString → List GoString → Option GoString
  /-- The outcome of `net.Interfaces()`; `none` when it returns an error. -/
  Interfaces : Option (List net.Interface)
  /-- The outcome of `os.Hostname()`: the name and whether an error came with it. -/
  Hostname : GoString × Bool

/-! ## `main.go` -/

/-- The loop of `getMACAddresses`: `macs = append(macs, ...)` for every
interface passing the test. -/
def getMACAddresses.loop : List net.Interface → List GoString → List GoString
  | [], macs => macs
  | iface :: rest, macs =>
    if iface.Flags &&& net.FlagLoopback = 0 ∧ iface.Flags &&& net.FlagUp ≠ 0
        ∧ iface.HardwareAddr.length > 0 then
      getMACAddresses.loop rest (macs ++ [net.HardwareAddr.String iface.HardwareAddr])
    else getMACAddresses.loop rest macs

def getMACAddresses (w : World) : List GoString :=
  match w.Interfaces with
  | none => []
  | some ifaces => getMACAddresses.loop ifaces []

def runCmd (w : World) (cmd : GoString) (args : List GoString) : GoString :=
  match w.exec cmd args with
  | none => lit ""
  | some out => strings.TrimSpace out

def getMotherboardSerial (w : World) : GoString :=
  if w.GOOS = lit "windows" then
    runCmd w (lit "wmic") [lit "baseboard", lit "get", lit "serialnumber"]
  else if w.GOOS = lit "linux" then
    runCmd w (lit "cat") [lit "/sys/class/dmi/id/board_serial"]
  else lit ""

/-- The loop over the lines of `/proc/cpuinfo` in `getCPUSerial`, followed by
`return "Not available"`. -/
def getCPUSerial.loop : List GoString → GoString
  | [] => lit "Not available"
  | line :: rest =>
    if strings.Contains line (lit "Serial") || strings.Contains line (lit "ProcessorId") then
      let parts := strings.Split line (lit ":")
      if parts.length = 2 then strings.TrimSpace (parts.getD 1 [])
      else getCPUSerial.loop rest
    else getCPUSerial.loop rest

def getCPUSerial (w : World) : GoString :=
  if w.GOOS = lit "windows" then
    runCmd w (lit "wmic") [lit "cpu", lit "get", lit "ProcessorId"]
  else if w.GOOS = lit "linux" then
    let output := runCmd w (lit "cat") [lit "/proc/cpuinfo"]
    getCPUSerial.loop (strings.Split output (lit "\n"))
  else lit ""

/-- The second loop of `getDriveSerial` (over the lines of `lsblk`), followed
by `return "Not available"`. -/
def getDriveSerial.lsblkLoop : List GoString → GoString
  | [] => lit "Not available"
  | line :: rest =>
    if strings.Contains line (lit "sda") then
      let fields := strings.Fields line
      if fields.length = 2 then fields.getD 1 []
      else getDriveSerial.lsblkLoop rest
    else getDriveSerial.lsblkLoop rest

/-- The first loop of `getDriveSerial` (over the lines of `udevadm`); `fallback`
is the rest of the function, run when the loop ends without returning. -/
def getDriveSerial.udevLoop (fallback : GoString) : List GoString → GoString
  | [] => fallback
  | line :: rest =>
    if strings.Contains line (lit "ID_SERIAL=") then
      let parts := strings.Split line (lit "=")
      if parts.length = 2 then strings.TrimSpace (parts.getD 1 [])
      else getDriveSerial.udevLoop fallback rest
    else getDriveSerial.udevLoop fallback rest

/-- The function `getDriveSerial`. The lsblk part, which the source runs only
when the udevadm loop ends without returning, is handed to that loop as the
value to return in that case. -/
def getDriveSerial (w : World) : GoString :=
  if w.GOOS = lit "windows" then
    runCmd w (lit "wmic") [lit "diskdrive", lit "get", lit "SerialNumber"]
  else if w.GOOS = lit "linux" then
    let output := runCmd w (lit "udevadm") [lit "info", lit "--query=all", lit "--name=/dev/sda"]
    getDriveSerial.udevLoop
      (let output := runCmd w (lit "lsblk") [lit "-o", lit "NAME,SERIAL"]
       getDriveSerial.lsblkLoop (strings.Split output (lit "\n")))
      (strings.Split output (lit "\n"))
  else lit ""

def getUUID (w : World) : GoString :=
  if w.GOOS = lit "windows" then
    runCmd w (lit "wmic") [lit "csproduct", lit "get", lit "UUID"]
  else if w.GOOS = lit "linux" then
    runCmd w (lit "cat") [lit "/sys/class/dmi/id/product_uuid"]
  else lit ""

def getManufacturerModel (w : World) : GoString :=
  if w.GOOS = lit "windows" then
    let man := runCmd w (lit "wmic") [lit "computersystem", lit "get", lit "manufacturer"]
    let mod := runCmd w (lit "wmic") [lit "computersystem", lit "get", lit "model"]
    lit "Manufacturer: " ++ man ++ lit "\nModel: " ++ mod
  else if w.GOOS = lit "linux" then
    let man := runCmd w (lit "cat") [lit "/sys/class/dmi/id/sys_vendor"]
    let mod := runCmd w (lit "cat") [lit "/sys/class/dmi/id/product_name"]
    lit "Manufacturer: " ++ man ++ lit "\nModel: " ++ mod
  else lit ""

/-- The slice expression `s[lo:]`: `none` is the run-time panic
"slice bounds out of range", raised when `lo > len(s)`. -/
def sliceFrom (s : GoString) (lo : Nat) : Option GoString :=
  if lo ≤ s.length then some (s.drop lo) else none

/-- The loop over the lines of `/etc/os-release` in `getOSInfo`, followed by
`return "Unknown Linux OS"`. -/
def getOSInfo.loop : List GoString → Option GoString
  | [] => some (lit "Unknown Linux OS")
  | line :: rest =>
    if strings.HasPrefix line (lit "PRETTY_NAME=") then
      (sliceFrom line 13).map fun v => strings.Trim v (lit "\"")
    else getOSInfo.loop rest

/-- The function `getOSInfo`; `none` when it panics. -/
def getOSInfo (w : World) : Option GoString :=
  if w.GOOS = lit "windows" then
    some (runCmd w (lit "cmd") [lit "/c", lit "ver"])
  else
    let output := runCmd w (lit "lsb_release") [lit "-a"]
    if output ≠ lit "" then some output
    else
      let output := runCmd w (lit "cat") [lit "/etc/os-release"]
      if output ≠ lit "" then getOSInfo.loop (strings.Split output (lit "\n"))
      else some (lit "Unknown Linux OS")

/-- What a run of the program leaves behind: the bytes written to standard
output, and whether the run ended in a panic. -/
structure Run where
  stdout : GoString
  panicked : Bool

/-- The loop `for _, mac := range getMACAddresses() { fmt.Println("  ", mac) }`. -/
def main.printMACs (out : GoString) : List GoString → GoString
  | [] => out
  | mac :: rest => main.printMACs (out ++ fmt.Println [lit "  ", mac]) rest

/-- The function `main`. The operands of a `Println` are evaluated before it
prints, so a panic in `getOSInfo` ends the run after the header "OS Info:". -/
def main (w : World) : Run :=
  let hostname := w.Hostname.1
  let out := fmt.Println [lit "=== Device Fingerprint Proof of Concept ==="]
  let out := out ++ fmt.Println [lit "MAC Address(es):"]
  let out := main.printMACs out (getMACAddresses w)
  let out := out ++ fmt.Println [lit "\nMotherboard/BIOS Serial Number:"]
  let out := out ++ fmt.Println [lit "  ", getMotherboardSerial w]
  let out := out ++ fmt.Println [lit "\nCPU Serial/ID:"]
  let out := out ++ fmt.Println [lit "  ", getCPUSerial w]
  let out := out ++ fmt.Println [lit "\nDrive Serial Number:"]
  let out := out ++ fmt.Println [lit "  ", getDriveSerial w]
  let out := out ++ fmt.Println [lit "\nHostname:"]
  let out := out ++ fmt.Println [lit "  ", hostname]
  let out := out ++ fmt.Println [lit "\nOS Info:"]
  match getOSInfo w with
  | none => { stdout := out, panicked := true }
  | some osInfo =>
    let out := out ++ fmt.Println [lit "  ", osInfo]
    let out := out ++ fmt.Println [lit "\nUUID/Hardware ID:"]
    let out := out ++ fmt.Println [lit "  ", getUUID w]
    let out := out ++ fmt.Println [lit "\nSystem Manufacturer/Model:"]
    let out := out ++ fmt.Println [lit "  ", getManufacturerModel w]
    { stdout := out, panicked := false }

/-! ## Specification-side definitions

Notions used to state the properties: the lines of a text, the text after the
first occurrence of a byte in a line, the up and loopback flags of an
interface, and the parsing rules of `getCPUSerial` and `getDriveSerial` written
as "the first line such that". -/

/-- The lines of a text: its pieces between newline bytes. -/
def Lines (s : GoString) : List GoString := strings.Split s (lit "\n")

/-- The text of `line` before its first byte `sep`. -/
def beforeFirst (sep : Nat) (line : GoString) : GoString := line.takeWhile (· != sep)

/-- The text of `line` after its first byte `sep`. -/
def afterFirst (sep : Nat) (line : GoString) : GoString := (line.dropWhile (· != sep)).drop 1

/-- The interface is administratively up: bit 0 (`FlagUp = 1 << 0`) of its flags. -/
def net.Interface.isUp (i : net.Interface) : Bool := i.Flags.testBit 0

/-- The interface is a loopback interface: bit 2 (`FlagLoopback = 1 << 2`) of its flags. -/
def net.Interface.isLoopback (i : net.Interface) : Bool := i.Flags.testBit 2

/-- The CPU-serial rule as the specification words it: the trimmed text after
the first colon of the first line whose key (the text before its first colon)
contains "Serial" or "ProcessorId"; "Not available" when there is none. -/
def cpuSerialAsWorded (cpuinfo : GoString) : GoString :=
  match (Lines cpuinfo).find? fun l =>
      l.contains 58 && (strings.Contains (beforeFirst 58 l) (lit "Serial")
        || strings.Contains (beforeFirst 58 l) (lit "ProcessorId")) with
  | some l => strings.TrimSpace (afterFirst 58 l)
  | none => lit "Not available"

/-- The CPU-serial rule, amended: the trimmed text after the colon of the first
line that contains "Serial" or "ProcessorId" (anywhere) and has exactly one
colon; "Not available" when there is none. -/
def cpuSerialRule (cpuinfo : GoString) : GoString :=
  match (Lines cpuinfo).find? fun l =>
      (strings.Contains l (lit "Serial") || strings.Contains l (lit "ProcessorId"))
        && l.count 58 == 1 with
  | some l => strings.TrimSpace (afterFirst 58 l)
  | none => lit "Not available"

/-- The lsblk fallback of the drive-serial rule: the second field of the first
line that contains "sda" and has exactly two fields; "Not available" when
there is none. -/
def lsblkRule (lsblk : GoString) : GoString :=
  match (Lines lsblk).find? fun l =>
      strings.Contains l (lit "sda") && (strings.Fields l).length == 2 with
  | some l => (strings.Fields l).getD 1 []
  | none => lit "Not available"

/-- The drive-serial rule as the specification words it: the trimmed text after
the first "=" of the first udevadm line containing "ID_SERIAL=", otherwise the
lsblk fallback. -/
def driveSerialAsWorded (udev lsblk : GoString) : GoString :=
  match (Lines udev).find? fun l => strings.Contains l (lit "ID_SERIAL=") with
  | some l => strings.TrimSpace (afterFirst 61 l)
  | none => lsblkRule lsblk

/-- The drive-serial rule, amended: the trimmed text after the "=" of the first
udevadm line that contains "ID_SERIAL=" and has exactly one "=", otherwise the
lsblk fallback. -/
def driveSerialRule (udev lsblk : GoString) : GoString :=
  match (Lines udev).find? fun l =>
      strings.Contains l (lit "ID_SERIAL=") && l.count 61 == 1 with
  | some l => strings.TrimSpace (afterFirst 61 l)
  | none => lsblkRule lsblk

/-- The eight section headers of the report, in order. -/
def sectionHeaders : List GoString :=
  [lit "MAC Address(es):", lit "Motherboard/BIOS Serial Number:", lit "CPU Serial/ID:",
   lit "Drive Serial Number:", lit "Hostname:", lit "OS Info:", lit "UUID/Hardware ID:",
   lit "System Manufacturer/Model:"]

/-- The lines that `fmt.Println("  ", v)` prints: the lines of `v`, the first
one after three spaces (the operand `"  "` and the separating space). -/
def valueLines (v : GoString) : List GoString :=
  (lit "   " ++ (Lines v).headD []) :: (Lines v).tail

/-- The line that follows the first occurrence of `header` among `lines`. -/
def lineAfter (header : GoString) (lines : List GoString) : Option GoString :=
  (lines.dropWhile (· != header)).get? 1

/-! ## Concrete machines -/

/-- A machine on which every external command, the interface enumeration and
the hostname lookup fail. -/
def failingWorld (goos : String) : World :=
  { GOOS := lit goos
    exec := fun _ _ => none
    Interfaces := none
    Hostname := (lit "", true) }

/-- A machine on which the only command that succeeds is `cmd` with the
arguments `args`, with output `out`; its hostname is "pc" and it has a loopback
interface, an interface that is down, and one that is up. -/
def oneCommandWorld (goos : String) (cmd : String) (args : List String) (out : String) : World :=
  { GOOS := lit goos
    exec := fun c a => if c = lit cmd ∧ a = args.map lit then some (lit out) else none
    Interfaces := some
      [{ Flags := 0x25, HardwareAddr := [0x00, 0x00, 0x00, 0x00, 0x00, 0x00] },
       { Flags := 0x12, HardwareAddr := [0x02, 0x42, 0xAC, 0x11, 0x00, 0x02] },
       { Flags := 0x33, HardwareAddr := [0xDE, 0xAD, 0xBE, 0xEF, 0x00, 0x1F] }]
    Hostname := (lit "pc", false) }

/-- A machine without usable network interface on which every external command
fails; its hostname is "pc". -/
def offlineWorld (goos : String) : World :=
  { GOOS := lit goos
    exec := fun _ _ => none
    Interfaces := some [{ Flags := 0x25, HardwareAddr := [] }]
    Hostname := (lit "pc", false) }

/-! # Theorems -/

/-! ## Lemmas on the string functions -/

theorem lit_newline : lit "\n" = [10] := rfl

theorem lit_colon : lit ":" = [58] := rfl

theorem lit_equals : lit "=" = [61] := rfl

theorem lit_empty : lit "" = [] := rfl

/-- The piece being read is a prefix of the first piece returned. -/
theorem splitAux_byte_cur (c : Nat) (s cur : GoString) :
    strings.splitAux [c] s 0 cur =
      (cur ++ (strings.splitAux [c] s 0 []).headD []) :: (strings.splitAux [c] s 0 []).tail := by
  induction s generalizing cur with
  | nil => simp [strings.splitAux]
  | cons x s ih =>
    by_cases h : c = x
    · simp [strings.splitAux, List.isPrefixOf, h]
    · simp only [strings.splitAux, List.isPrefixOf, h, beq_iff_eq, Bool.and_true, if_false]
      rw [ih (cur ++ [x]), ih ([] ++ [x])]
      simp

theorem Split_byte_nil (c : Nat) : strings.Split [] [c] = [[]] := by
  simp [strings.Split, strings.splitAux]

theorem Split_byte_cons (c x : Nat) (s : GoString) :
    strings.Split (x :: s) [c] =
      if c = x then [] :: strings.Split s [c]
      else (x :: (strings.Split s [c]).headD []) :: (strings.Split s [c]).tail := by
  by_cases h : c = x
  · simp [strings.Split, strings.splitAux, List.isPrefixOf, h]
  · simp only [strings.Split, strings.splitAux, List.isPrefixOf, h, beq_iff_eq, Bool.and_true,
      if_false]
    rw [splitAux_byte_cur]
    simp

theorem Split_byte_ne_nil (c : Nat) (s : GoString) : strings.Split s [c] ≠ [] := by
  cases s with
  | nil => simp [Split_byte_nil]
  | cons x s => rw [Split_byte_cons]; split <;> simp

/-- Splitting at a one-byte separator: the pieces of `a ++ sep ++ b` are those
of `a` followed by those of `b`. -/
theorem Split_byte_append (c : Nat) (a b : GoString) :
    strings.Split (a ++ c :: b) [c] = strings.Split a [c] ++ strings.Split b [c] := by
  induction a with
  | nil => simp [Split_byte_cons, Split_byte_nil]
  | cons x a ih =>
    rw [List.cons_append, Split_byte_cons, Split_byte_cons, ih]
    by_cases h : c = x
    · simp [h]
    · have hne := Split_byte_ne_nil c a
      cases hs : strings.Split a [c] with
      | nil => exact absurd hs hne
      | cons p ps => simp [h]

theorem Split_byte_of_not_mem (c : Nat) (a : GoString) (h : c ∉ a) :
    strings.Split a [c] = [a] := by
  induction a with
  | nil => exact Split_byte_nil c
  | cons x a ih =>
    have hx : c ≠ x := fun e => h (by simp [e])
    have ha : c ∉ a := fun e => h (by simp [e])
    rw [Split_byte_cons, ih ha]
    simp [hx]

/-- A text without the separator in front of another: it joins the first piece. -/
theorem Split_byte_prepend (c : Nat) (a s : GoString) (h : c ∉ a) :
    strings.Split (a ++ s) [c] =
      (a ++ (strings.Split s [c]).headD []) :: (strings.Split s [c]).tail := by
  induction a with
  | nil =>
    have hne := Split_byte_ne_nil c s
    cases hs : strings.Split s [c] with
    | nil => exact absurd hs hne
    | cons p ps => simp [hs]
  | cons x a ih =>
    have hx : c ≠ x := fun e => h (by simp [e])
    have ha : c ∉ a := fun e => h (by simp [e])
    rw [List.cons_append, Split_byte_cons, ih ha]
    simp [hx]

theorem Split_byte_length (c : Nat) (s : GoString) :
    (strings.Split s [c]).length = s.count c + 1 := by
  induction s with
  | nil => simp [Split_byte_nil]
  | cons x s ih =>
    rw [Split_byte_cons]
    by_cases h : c = x
    · subst h; simp [ih]
    · have hne := Split_byte_ne_nil c s
      have hx : x ≠ c := fun e => h e.symm
      cases hs : strings.Split s [c] with
      | nil => exact absurd hs hne
      | cons p ps =>
        rw [hs] at ih
        simp [h, List.count_cons, hx] at ih ⊢
        omega

/-- A line with exactly one separator byte splits into the text before it and
the text after it. -/
theorem Split_byte_of_count_one (c : Nat) (s : GoString) (h : s.count c = 1) :
    strings.Split s [c] = [beforeFirst c s, afterFirst c s] := by
  induction s with
  | nil => simp at h
  | cons x s ih =>
    rw [Split_byte_cons]
    by_cases hx : c = x
    · subst hx
      have h0 : s.count c = 0 := by simpa using h
      have hmem : c ∉ s := List.count_eq_zero.mp h0
      simp [Split_byte_of_not_mem c s hmem, beforeFirst, afterFirst]
    · have hx2 : x ≠ c := fun e => hx e.symm
      have h1 : s.count c = 1 := by simpa [List.count_cons, hx2] using h
      simp [ih h1, hx, hx2, beforeFirst, afterFirst, List.takeWhile_cons, List.dropWhile_cons]

/-! ## The loops of `main.go` as "first line such that" -/

theorem land_FlagUp_ne_zero (n : Nat) : n &&& net.FlagUp ≠ 0 ↔ n.testBit 0 = true := by
  simp [net.FlagUp, Nat.testBit_zero]

theorem land_FlagLoopback_eq_zero (n : Nat) : n &&& net.FlagLoopback = 0 ↔ n.testBit 2 = false := by
  have h4 : net.FlagLoopback = 2 ^ 2 := rfl
  have hbit : Nat.testBit (2 ^ 2) 2 = true := Nat.testBit_two_pow_self
  constructor
  · intro h
    have h2 : (n &&& 2 ^ 2).testBit 2 = Nat.testBit 0 2 := by rw [← h4, h]
    rw [Nat.testBit_and, hbit, Nat.zero_testBit, Bool.and_true] at h2
    exact h2
  · intro h
    apply Nat.eq_of_testBit_eq
    intro i
    rw [Nat.testBit_and, h4, Nat.testBit_two_pow]
    by_cases hi : 2 = i
    · subst hi; simp [h]
    · simp [hi]

/-- The test of `getMACAddresses` on the flag bits and the address length says:
up, not loopback, non-empty hardware address. -/
theorem getMACAddresses_test_iff (i : net.Interface) :
    (i.Flags &&& net.FlagLoopback = 0 ∧ i.Flags &&& net.FlagUp ≠ 0
        ∧ i.HardwareAddr.length > 0) ↔
      (i.isUp && !i.isLoopback && decide (i.HardwareAddr ≠ [])) = true := by
  have hlen : i.HardwareAddr.length > 0 ↔ i.HardwareAddr ≠ [] := by
    cases i.HardwareAddr <;> simp
  rw [land_FlagLoopback_eq_zero, land_FlagUp_ne_zero, hlen]
  unfold net.Interface.isUp net.Interface.isLoopback
  cases i.Flags.testBit 0 <;> cases i.Flags.testBit 2 <;> simp

theorem getMACAddresses_loop_eq (ifaces : List net.Interface) (macs : List GoString) :
    getMACAddresses.loop ifaces macs =
      macs ++ (ifaces.filter fun i => i.isUp && !i.isLoopback && decide (i.HardwareAddr ≠ [])).map
        fun i => net.HardwareAddr.String i.HardwareAddr := by
  induction ifaces generalizing macs with
  | nil => simp [getMACAddresses.loop]
  | cons i rest ih =>
    simp only [getMACAddresses.loop, List.filter_cons]
    by_cases h : (i.isUp && !i.isLoopback && decide (i.HardwareAddr ≠ [])) = true
    · rw [if_pos ((getMACAddresses_test_iff i).mpr h), if_pos h, ih]
      simp
    · rw [if_neg (fun hc => h ((getMACAddresses_test_iff i).mp hc)), if_neg h, ih]

theorem getCPUSerial_loop_eq (lines : List GoString) :
    getCPUSerial.loop lines =
      match lines.find? fun l =>
          (strings.Contains l (lit "Serial") || strings.Contains l (lit "ProcessorId"))
            && l.count 58 == 1 with
      | some l => strings.TrimSpace (afterFirst 58 l)
      | none => lit "Not available" := by
  induction lines with
  | nil => simp [getCPUSerial.loop]
  | cons l rest ih =>
    simp only [getCPUSerial.loop, List.find?_cons, lit_colon, Split_byte_length]
    cases hc : (strings.Contains l (lit "Serial") || strings.Contains l (lit "ProcessorId"))
    · simp [ih]
    · cases hb : (l.count 58 == 1)
      · have h1 : ¬ l.count 58 = 1 := by simpa using hb
        simp [h1, ih]
      · have h1 : l.count 58 = 1 := by simpa using hb
        simp [h1, Split_byte_of_count_one 58 l h1]

theorem getDriveSerial_lsblkLoop_eq (lines : List GoString) :
    getDriveSerial.lsblkLoop lines =
      match lines.find? fun l =>
          strings.Contains l (lit "sda") && (strings.Fields l).length == 2 with
      | some l => (strings.Fields l).getD 1 []
      | none => lit "Not available" := by
  induction lines with
  | nil => simp [getDriveSerial.lsblkLoop]
  | cons l rest ih =>
    simp only [getDriveSerial.lsblkLoop, List.find?_cons]
    cases hc : strings.Contains l (lit "sda")
    · simp [ih]
    · cases hb : ((strings.Fields l).length == 2)
      · have h1 : ¬ (strings.Fields l).length = 2 := by simpa using hb
        simp [h1, ih]
      · have h1 : (strings.Fields l).length = 2 := by simpa using hb
        simp [h1]

theorem getDriveSerial_udevLoop_eq (fallback : GoString) (lines : List GoString) :
    getDriveSerial.udevLoop fallback lines =
      match lines.find? fun l =>
          strings.Contains l (lit "ID_SERIAL=") && l.count 61 == 1 with
      | some l => strings.TrimSpace (afterFirst 61 l)
      | none => fallback := by
  induction lines with
  | nil => simp [getDriveSerial.udevLoop]
  | cons l rest ih =>
    simp only [getDriveSerial.udevLoop, List.find?_cons, lit_equals, Split_byte_length]
    cases hc : strings.Contains l (lit "ID_SERIAL=")
    · simp [ih]
    · cases hb : (l.count 61 == 1)
      · have h1 : ¬ l.count 61 = 1 := by simpa using hb
        simp [h1, ih]
      · have h1 : l.count 61 = 1 := by simpa using hb
        simp [h1, Split_byte_of_count_one 61 l h1]

theorem getOSInfo_loop_unknown (lines : List GoString)
    (h : ∀ l ∈ lines, strings.HasPrefix l (lit "PRETTY_NAME=") = false) :
    getOSInfo.loop lines = some (lit "Unknown Linux OS") := by
  induction lines with
  | nil => rfl
  | cons l rest ih =>
    have hl := h l (by simp)
    simp only [getOSInfo.loop, hl]
    exact ih fun l' hl' => h l' (by simp [hl'])

theorem linux_ne_windows : lit "linux" ≠ lit "windows" := by decide

theorem find?_first_match {α : Type} (p : α → Bool) (pre post : List α) (l : α)
    (hpre : ∀ x ∈ pre, p x = false) (hl : p l = true) :
    (pre ++ l :: post).find? p = some l := by
  induction pre with
  | nil => simp [hl]
  | cons x pre ih =>
    have hx := hpre x (by simp)
    simp only [List.cons_append, List.find?_cons, hx]
    exact ih fun y hy => hpre y (by simp [hy])

/-- On a platform other than "windows" and "linux", the five routines with a
`default` case return the empty string. -/
theorem unsupported_platform_empty (w : World) (hw : w.GOOS ≠ lit "windows")
    (hl : w.GOOS ≠ lit "linux") :
    getMotherboardSerial w = lit "" ∧ getCPUSerial w = lit "" ∧ getDriveSerial w = lit ""
      ∧ getUUID w = lit "" ∧ getManufacturerModel w = lit "" := by
  simp [getMotherboardSerial, getCPUSerial, getDriveSerial, getUUID, getManufacturerModel, hw, hl]

/-- What `getOSInfo` does with the first line that has the prefix
"PRETTY_NAME=": it panics when nothing follows the prefix, and otherwise drops
the first byte after the prefix, whatever it is, before trimming the quotes. -/
theorem getOSInfo_loop_first_pretty (pre post : List GoString) (v : GoString)
    (hpre : ∀ l ∈ pre, strings.HasPrefix l (lit "PRETTY_NAME=") = false) :
    getOSInfo.loop (pre ++ (lit "PRETTY_NAME=" ++ v) :: post) =
      if v = [] then none else some (strings.Trim (v.drop 1) (lit "\"")) := by
  induction pre with
  | nil =>
    have hp : strings.HasPrefix (lit "PRETTY_NAME=" ++ v) (lit "PRETTY_NAME=") = true := by
      simp [strings.HasPrefix]
    have hlen : (lit "PRETTY_NAME=").length = 12 := rfl
    simp only [List.nil_append, getOSInfo.loop, hp, if_true, sliceFrom, List.length_append, hlen]
    cases v with
    | nil => simp
    | cons b v =>
      have hd : List.drop 13 (lit "PRETTY_NAME=" ++ b :: v) = v := by
        rw [List.drop_append_eq_append_drop]
        simp [hlen]
      have hle : 13 ≤ 12 + (v.length + 1) := by omega
      simp [hd, hle]
  | cons x pre ih =>
    have hx := hpre x (by simp)
    simp only [List.cons_append, getOSInfo.loop, hx]
    exact ih fun y hy => hpre y (by simp [hy])

/-- C1 (the code at the failing input): on the platform "darwin", which is
neither "windows" nor "linux", with every external command failing,
`getOSInfo` returns "Unknown Linux OS" and not the empty string, while the five
other extraction routines return the empty string. -/
theorem getOSInfo_unsupported_platform :
    getOSInfo (failingWorld "darwin") = some (lit "Unknown Linux OS")
      ∧ getOSInfo (failingWorld "darwin") ≠ some (lit "")
      ∧ getMotherboardSerial (failingWorld "darwin") = lit ""
      ∧ getCPUSerial (failingWorld "darwin") = lit ""
      ∧ getDriveSerial (failingWorld "darwin") = lit ""
      ∧ getUUID (failingWorld "darwin") = lit ""
      ∧ getManufacturerModel (failingWorld "darwin") = lit "" := by
  decide

/-- C2 (counterexample): the rule as worded fails on two inputs. With the only
matching line "Serial: AB:CD" the code returns "Not available" where the
wording gives "AB:CD" (the line has two colons); with "model name: Serial ATA"
before "Serial: X1" the code returns "Serial ATA" where the wording gives "X1"
(the code looks for "Serial" in the whole line, not in the key). -/
theorem getCPUSerial_not_as_worded :
    getCPUSerial (oneCommandWorld "linux" "cat" ["/proc/cpuinfo"] "Serial: AB:CD\n")
        = lit "Not available"
      ∧ cpuSerialAsWorded (runCmd
          (oneCommandWorld "linux" "cat" ["/proc/cpuinfo"] "Serial: AB:CD\n")
          (lit "cat") [lit "/proc/cpuinfo"]) = lit "AB:CD"
      ∧ getCPUSerial
          (oneCommandWorld "linux" "cat" ["/proc/cpuinfo"] "model name: Serial ATA\nSerial: X1\n")
        = lit "Serial ATA"
      ∧ cpuSerialAsWorded (runCmd
          (oneCommandWorld "linux" "cat" ["/proc/cpuinfo"] "model name: Serial ATA\nSerial: X1\n")
          (lit "cat") [lit "/proc/cpuinfo"]) = lit "X1"
      ∧ getCPUSerial (oneCommandWorld "linux" "cat" ["/proc/cpuinfo"] "Serial: AB:CD\n")
        ≠ cpuSerialAsWorded (runCmd
          (oneCommandWorld "linux" "cat" ["/proc/cpuinfo"] "Serial: AB:CD\n")
          (lit "cat") [lit "/proc/cpuinfo"]) := by
  decide

/-- C2 (amended): on linux, `getCPUSerial` returns the whitespace-trimmed text
after the colon of the first line of the `/proc/cpuinfo` text that contains
"Serial" or "ProcessorId" and has exactly one colon, and "Not available" when
there is no such line; when that first line is "Serial: ABC123" the result is
"ABC123". -/
theorem getCPUSerial_linux (w : World) (hos : w.GOOS = lit "linux") :
    getCPUSerial w = cpuSerialRule (runCmd w (lit "cat") [lit "/proc/cpuinfo"])
      ∧ ∀ pre post : List GoString,
          Lines (runCmd w (lit "cat") [lit "/proc/cpuinfo"])
            = pre ++ lit "Serial: ABC123" :: post →
          (∀ l ∈ pre, ((strings.Contains l (lit "Serial")
            || strings.Contains l (lit "ProcessorId")) && l.count 58 == 1) = false) →
          getCPUSerial w = lit "ABC123" := by
  have h : getCPUSerial w = cpuSerialRule (runCmd w (lit "cat") [lit "/proc/cpuinfo"]) := by
    simp only [getCPUSerial, hos, linux_ne_windows, if_false, if_true, cpuSerialRule, Lines]
    exact getCPUSerial_loop_eq _
  refine ⟨h, fun pre post hlines hpre => ?_⟩
  rw [h, cpuSerialRule, hlines, find?_first_match _ pre post _ hpre (by decide)]
  decide

theorem getCPUSerial_linux_witness :
    getCPUSerial
        (oneCommandWorld "linux" "cat" ["/proc/cpuinfo"] "processor\t: 0\nSerial\t\t: ABC123\n")
      = lit "ABC123" :=
  (getCPUSerial_linux
    (oneCommandWorld "linux" "cat" ["/proc/cpuinfo"] "processor\t: 0\nSerial\t\t: ABC123\n")
    (by decide)).1.trans (by decide)

/-- C3 (counterexample): with the udevadm output "E: ID_SERIAL=A=B" and lsblk
failing, the code returns "Not available" where the rule as worded gives the
text after the first "=", "A=B": the code skips a line with two "=". -/
theorem getDriveSerial_not_as_worded :
    getDriveSerial (oneCommandWorld "linux" "udevadm"
        ["info", "--query=all", "--name=/dev/sda"] "E: ID_SERIAL=A=B\n") = lit "Not available"
      ∧ driveSerialAsWorded
        (runCmd (oneCommandWorld "linux" "udevadm"
          ["info", "--query=all", "--name=/dev/sda"] "E: ID_SERIAL=A=B\n")
          (lit "udevadm") [lit "info", lit "--query=all", lit "--name=/dev/sda"])
        (runCmd (oneCommandWorld "linux" "udevadm"
          ["info", "--query=all", "--name=/dev/sda"] "E: ID_SERIAL=A=B\n")
          (lit "lsblk") [lit "-o", lit "NAME,SERIAL"]) = lit "A=B"
      ∧ getDriveSerial (oneCommandWorld "linux" "udevadm"
          ["info", "--query=all", "--name=/dev/sda"] "E: ID_SERIAL=A=B\n") ≠ lit "A=B" := by
  decide

/-- C3 (amended): on linux, `getDriveSerial` returns the whitespace-trimmed
text after the "=" of the first udevadm line that contains "ID_SERIAL=" and has
exactly one "="; when there is no such line, the second whitespace-separated
field of the first lsblk line that contains "sda" and has exactly two fields;
otherwise "Not available". A first such udevadm line "ID_SERIAL=XYZ789" gives
"XYZ789"; with no such udevadm line, a first such lsblk line "sda  SN001" gives
"SN001". -/
theorem getDriveSerial_linux (w : World) (hos : w.GOOS = lit "linux") :
    getDriveSerial w = driveSerialRule
        (runCmd w (lit "udevadm") [lit "info", lit "--query=all", lit "--name=/dev/sda"])
        (runCmd w (lit "lsblk") [lit "-o", lit "NAME,SERIAL"])
      ∧ (∀ pre post : List GoString,
          Lines (runCmd w (lit "udevadm") [lit "info", lit "--query=all", lit "--name=/dev/sda"])
            = pre ++ lit "ID_SERIAL=XYZ789" :: post →
          (∀ l ∈ pre, (strings.Contains l (lit "ID_SERIAL=") && l.count 61 == 1) = false) →
          getDriveSerial w = lit "XYZ789")
      ∧ (∀ pre post : List GoString,
          (∀ l ∈ Lines (runCmd w (lit "udevadm")
              [lit "info", lit "--query=all", lit "--name=/dev/sda"]),
            (strings.Contains l (lit "ID_SERIAL=") && l.count 61 == 1) = false) →
          Lines (runCmd w (lit "lsblk") [lit "-o", lit "NAME,SERIAL"])
            = pre ++ lit "sda  SN001" :: post →
          (∀ l ∈ pre, (strings.Contains l (lit "sda")
            && (strings.Fields l).length == 2) = false) →
          getDriveSerial w = lit "SN001") := by
  have h : getDriveSerial w = driveSerialRule
      (runCmd w (lit "udevadm") [lit "info", lit "--query=all", lit "--name=/dev/sda"])
      (runCmd w (lit "lsblk") [lit "-o", lit "NAME,SERIAL"]) := by
    simp only [getDriveSerial, hos, linux_ne_windows, if_false, if_true, driveSerialRule,
      lsblkRule, Lines]
    rw [getDriveSerial_udevLoop_eq, getDriveSerial_lsblkLoop_eq]
  refine ⟨h, fun pre post hlines hpre => ?_, fun pre post hudev hlines hpre => ?_⟩
  · rw [h, driveSerialRule, hlines, find?_first_match _ pre post _ hpre (by decide)]
    show strings.TrimSpace (afterFirst 61 (lit "ID_SERIAL=XYZ789")) = lit "XYZ789"
    decide
  · have hnone : (Lines (runCmd w (lit "udevadm")
        [lit "info", lit "--query=all", lit "--name=/dev/sda"])).find?
        (fun l => strings.Contains l (lit "ID_SERIAL=") && l.count 61 == 1) = none := by
      rw [List.find?_eq_none]
      intro l hl
      simp [hudev l hl]
    rw [h, driveSerialRule, hnone]
    simp only [lsblkRule]
    rw [hlines, find?_first_match _ pre post _ hpre (by decide)]
    decide

theorem getDriveSerial_linux_witness :
    getDriveSerial (oneCommandWorld "linux" "lsblk" ["-o", "NAME,SERIAL"]
        "NAME SERIAL\nsda  SN001\n") = lit "SN001" :=
  (getDriveSerial_linux
    (oneCommandWorld "linux" "lsblk" ["-o", "NAME,SERIAL"] "NAME SERIAL\nsda  SN001\n")
    (by decide)).2.2 [lit "NAME SERIAL"] [] (by decide) (by decide) (by decide)

/-- C4 (the code at the failing input): with lsb_release failing and the
os-release line "PRETTY_NAME=Ubuntu", whose value "Ubuntu" has no quotes to
strip, `getOSInfo` returns "buntu": the slice from index 13 drops the first
byte of the value. -/
theorem getOSInfo_unquoted_pretty_name :
    getOSInfo (oneCommandWorld "linux" "cat" ["/etc/os-release"]
        "NAME=Ubuntu\nPRETTY_NAME=Ubuntu\nID=ubuntu\n") = some (lit "buntu")
      ∧ strings.Trim (lit "Ubuntu") (lit "\"") = lit "Ubuntu" := by
  decide

/-- C5: on linux, `getOSInfo` returns the trimmed output of `lsb_release -a`
unchanged when it is not empty, whatever the os-release file holds; when it is
empty and the os-release text is empty or has no line with the prefix
"PRETTY_NAME=", `getOSInfo` returns "Unknown Linux OS". -/
theorem getOSInfo_linux_lsb_release (w : World) (hos : w.GOOS = lit "linux") :
    (runCmd w (lit "lsb_release") [lit "-a"] ≠ lit "" →
        getOSInfo w = some (runCmd w (lit "lsb_release") [lit "-a"]))
      ∧ (runCmd w (lit "lsb_release") [lit "-a"] = lit "" →
          (runCmd w (lit "cat") [lit "/etc/os-release"] = lit ""
            ∨ ∀ l ∈ Lines (runCmd w (lit "cat") [lit "/etc/os-release"]),
                strings.HasPrefix l (lit "PRETTY_NAME=") = false) →
          getOSInfo w = some (lit "Unknown Linux OS")) := by
  constructor
  · intro h
    simp [getOSInfo, hos, linux_ne_windows, h]
  · intro h hrel
    simp only [getOSInfo, hos, linux_ne_windows, if_false, h, ne_eq, not_true_eq_false]
    by_cases he : runCmd w (lit "cat") [lit "/etc/os-release"] = lit ""
    · simp [he]
    · rcases hrel with h0 | hno
      · exact absurd h0 he
      · simp only [he, not_false_eq_true, if_true]
        exact getOSInfo_loop_unknown _ hno

theorem getOSInfo_linux_lsb_release_witness :
    getOSInfo (oneCommandWorld "linux" "lsb_release" ["-a"] "Description:\tUbuntu 22.04\n")
        = some (lit "Description:\tUbuntu 22.04")
      ∧ getOSInfo (oneCommandWorld "linux" "cat" ["/etc/os-release"] "NAME=Ubuntu\nID=ubuntu\n")
        = some (lit "Unknown Linux OS") :=
  ⟨((getOSInfo_linux_lsb_release
      (oneCommandWorld "linux" "lsb_release" ["-a"] "Description:\tUbuntu 22.04\n")
      (by decide)).1 (by decide)).trans (by decide),
   (getOSInfo_linux_lsb_release
      (oneCommandWorld "linux" "cat" ["/etc/os-release"] "NAME=Ubuntu\nID=ubuntu\n")
      (by decide)).2 (by decide) (Or.inr (by decide))⟩

/-- C6: `getMACAddresses` returns the formatted hardware addresses of exactly
the interfaces that are up, not loopback, and have a non-empty hardware
address, in the order of the enumeration, and the empty sequence when the
enumeration fails; an enumeration of a loopback interface, an interface that is
down and an interface that is up with an address gives the one address of the
last. -/
theorem getMACAddresses_eq_filter (w : World) :
    getMACAddresses w =
        (match w.Interfaces with
         | none => []
         | some ifaces =>
           (ifaces.filter fun i =>
              i.isUp && !i.isLoopback && decide (i.HardwareAddr ≠ [])).map
             fun i => net.HardwareAddr.String i.HardwareAddr)
      ∧ ∀ lo down up : net.Interface,
          w.Interfaces = some [lo, down, up] → lo.isLoopback = true → down.isUp = false →
          up.isUp = true → up.isLoopback = false → up.HardwareAddr ≠ [] →
          getMACAddresses w = [net.HardwareAddr.String up.HardwareAddr] := by
  have h : getMACAddresses w =
      (match w.Interfaces with
       | none => []
       | some ifaces =>
         (ifaces.filter fun i =>
            i.isUp && !i.isLoopback && decide (i.HardwareAddr ≠ [])).map
           fun i => net.HardwareAddr.String i.HardwareAddr) := by
    unfold getMACAddresses
    cases w.Interfaces with
    | none => rfl
    | some ifaces => simp [getMACAddresses_loop_eq]
  refine ⟨h, fun lo down up hi hlo hdown hup hupl haddr => ?_⟩
  rw [h, hi]
  simp [List.filter_cons, hlo, hdown, hup, hupl, haddr]

theorem getMACAddresses_eq_filter_witness :
    getMACAddresses (oneCommandWorld "linux" "cat" ["/proc/cpuinfo"] "")
      = [lit "de:ad:be:ef:00:1f"] :=
  ((getMACAddresses_eq_filter (oneCommandWorld "linux" "cat" ["/proc/cpuinfo"] "")).2
    { Flags := 0x25, HardwareAddr := [0x00, 0x00, 0x00, 0x00, 0x00, 0x00] }
    { Flags := 0x12, HardwareAddr := [0x02, 0x42, 0xAC, 0x11, 0x00, 0x02] }
    { Flags := 0x33, HardwareAddr := [0xDE, 0xAD, 0xBE, 0xEF, 0x00, 0x1F] }
    rfl (by decide) (by decide) (by decide) (by decide) (by decide)).trans (by decide)

/-- C8 (counterexample): on linux with every external command failing,
`getManufacturerModel` returns the two labels and `getOSInfo` returns "Unknown
Linux OS"; neither returns the empty string. -/
theorem all_commands_fail_not_all_empty :
    ¬ (getMotherboardSerial (failingWorld "linux") = lit ""
        ∧ getCPUSerial (failingWorld "linux") = lit "Not available"
        ∧ getDriveSerial (failingWorld "linux") = lit "Not available"
        ∧ getUUID (failingWorld "linux") = lit ""
        ∧ getManufacturerModel (failingWorld "linux") = lit ""
        ∧ getOSInfo (failingWorld "linux") = some (lit "")) := by
  decide

/-- C8 (amended): on windows or linux, when every external command fails
(`runCmd` returns ""), `getMotherboardSerial` and `getUUID` return the empty
string; `getCPUSerial` and `getDriveSerial` return the empty string on windows
and "Not available" on linux; `getOSInfo` returns the empty string on windows
and "Unknown Linux OS" on linux; `getManufacturerModel` returns the two labels
with empty values, "Manufacturer: \nModel: ". -/
theorem all_commands_fail (w : World) (hfail : ∀ cmd args, runCmd w cmd args = lit "")
    (hos : w.GOOS = lit "windows" ∨ w.GOOS = lit "linux") :
    getMotherboardSerial w = lit "" ∧ getUUID w = lit ""
      ∧ getCPUSerial w = (if w.GOOS = lit "linux" then lit "Not available" else lit "")
      ∧ getDriveSerial w = (if w.GOOS = lit "linux" then lit "Not available" else lit "")
      ∧ getOSInfo w = some (if w.GOOS = lit "linux" then lit "Unknown Linux OS" else lit "")
      ∧ getManufacturerModel w = lit "Manufacturer: \nModel: " := by
  have hw : lit "windows" ≠ lit "linux" := by decide
  rcases hos with hos | hos
  · simp only [getMotherboardSerial, getUUID, getCPUSerial, getDriveSerial, getOSInfo,
      getManufacturerModel, hos, hfail, hw, if_true, if_false]
    decide
  · simp only [getMotherboardSerial, getUUID, getCPUSerial, getDriveSerial, getOSInfo,
      getManufacturerModel, hos, hfail, linux_ne_windows, if_true, if_false]
    decide

theorem all_commands_fail_witness :
    getMotherboardSerial (failingWorld "linux") = lit "" ∧ getUUID (failingWorld "linux") = lit ""
      ∧ getCPUSerial (failingWorld "linux") = lit "Not available"
      ∧ getDriveSerial (failingWorld "linux") = lit "Not available"
      ∧ getOSInfo (failingWorld "linux") = some (lit "Unknown Linux OS")
      ∧ getManufacturerModel (failingWorld "linux") = lit "Manufacturer: \nModel: " :=
  all_commands_fail (failingWorld "linux") (fun _ _ => rfl) (Or.inr rfl)

/-- C9 (the code at the failing input): with lsb_release failing and an
os-release file whose line is exactly "PRETTY_NAME=", 12 bytes long, the slice
from index 13 is out of bounds and `getOSInfo` panics. -/
theorem getOSInfo_empty_pretty_name_panics :
    getOSInfo (oneCommandWorld "linux" "cat" ["/etc/os-release"] "PRETTY_NAME=\n") = none
      ∧ strings.HasPrefix (lit "PRETTY_NAME=") (lit "PRETTY_NAME=") = true
      ∧ (lit "PRETTY_NAME=").length = 12
      ∧ sliceFrom (lit "PRETTY_NAME=") 13 = none := by
  decide

/-! ## The report printed by `main` -/

theorem hexDigit_getD_ne_newline (n : Nat) : net.hexDigit.getD n 0 ≠ 10 := by
  by_cases h : n < 16
  · interval_cases n <;> decide
  · have hlen : net.hexDigit.length ≤ n := by
      have : net.hexDigit.length = 16 := rfl
      omega
    rw [List.getD_eq_default _ _ hlen]
    decide

theorem HardwareAddr_String_no_newline (a : List Nat) : 10 ∉ net.HardwareAddr.String a := by
  induction a with
  | nil => simp [net.HardwareAddr.String]
  | cons b rest ih =>
    have h1 := hexDigit_getD_ne_newline (b >>> 4)
    have h2 := hexDigit_getD_ne_newline (b &&& 0xF)
    cases rest with
    | nil =>
      simp only [net.HardwareAddr.String, List.mem_cons, List.mem_nil_iff, or_false, not_or]
      exact ⟨fun e => h1 e.symm, fun e => h2 e.symm⟩
    | cons c rest =>
      simp only [net.HardwareAddr.String, List.mem_cons, not_or] at ih ⊢
      exact ⟨fun e => h1 e.symm, fun e => h2 e.symm, by decide, ih⟩

theorem getMACAddresses_no_newline (w : World) : ∀ m ∈ getMACAddresses w, 10 ∉ m := by
  intro m hm
  cases hi : w.Interfaces with
  | none => simp [getMACAddresses, hi] at hm
  | some ifaces =>
    simp only [getMACAddresses, hi, getMACAddresses_loop_eq, List.nil_append, List.mem_map] at hm
    obtain ⟨i, _, rfl⟩ := hm
    exact HardwareAddr_String_no_newline _

/-- The lines of a text that starts with a `Println`. -/
theorem Lines_Println_append (args : List GoString) (rest : GoString) :
    Lines (fmt.Println args ++ rest) = Lines ((lit " ").intercalate args) ++ Lines rest := by
  unfold Lines fmt.Println
  rw [lit_newline, List.append_assoc, List.singleton_append, Split_byte_append]

theorem Lines_value (v : GoString) :
    Lines ((lit " ").intercalate [lit "  ", v]) = valueLines v := by
  have h : (lit " ").intercalate [lit "  ", v] = lit "   " ++ v := by
    simp [List.intercalate, List.intersperse]
    rfl
  rw [h, valueLines]
  unfold Lines
  rw [lit_newline]
  exact Split_byte_prepend 10 (lit "   ") v (by decide)

theorem printMACs_eq (out : GoString) (macs : List GoString) :
    main.printMACs out macs = out ++ (macs.map fun m => fmt.Println [lit "  ", m]).flatten := by
  induction macs generalizing out with
  | nil => simp [main.printMACs]
  | cons m macs ih => simp [main.printMACs, ih]

theorem Lines_macs (macs : List GoString) (rest : GoString) (h : ∀ m ∈ macs, 10 ∉ m) :
    Lines ((macs.map fun m => fmt.Println [lit "  ", m]).flatten ++ rest) =
      macs.map (fun m => lit "   " ++ m) ++ Lines rest := by
  induction macs with
  | nil => simp
  | cons m macs ih =>
    have hm : 10 ∉ m := h m (by simp)
    have hs : strings.Split m [10] = [m] := Split_byte_of_not_mem 10 m hm
    rw [List.map_cons, List.flatten_cons, List.append_assoc, Lines_Println_append, Lines_value,
      ih fun m' hm' => h m' (by simp [hm'])]
    simp [valueLines, Lines, lit_newline, hs]

/-- The standard output of a run in which `getOSInfo` does not panic. -/
theorem main_stdout (w : World) (osInfo : GoString) (h : getOSInfo w = some osInfo) :
    (main w).stdout =
      fmt.Println [lit "=== Device Fingerprint Proof of Concept ==="]
      ++ (fmt.Println [lit "MAC Address(es):"]
      ++ (((getMACAddresses w).map fun m => fmt.Println [lit "  ", m]).flatten
      ++ (fmt.Println [lit "\nMotherboard/BIOS Serial Number:"]
      ++ (fmt.Println [lit "  ", getMotherboardSerial w]
      ++ (fmt.Println [lit "\nCPU Serial/ID:"]
      ++ (fmt.Println [lit "  ", getCPUSerial w]
      ++ (fmt.Println [lit "\nDrive Serial Number:"]
      ++ (fmt.Println [lit "  ", getDriveSerial w]
      ++ (fmt.Println [lit "\nHostname:"]
      ++ (fmt.Println [lit "  ", w.Hostname.1]
      ++ (fmt.Println [lit "\nOS Info:"]
      ++ (fmt.Println [lit "  ", osInfo]
      ++ (fmt.Println [lit "\nUUID/Hardware ID:"]
      ++ (fmt.Println [lit "  ", getUUID w]
      ++ (fmt.Println [lit "\nSystem Manufacturer/Model:"]
      ++ (fmt.Println [lit "  ", getManufacturerModel w] ++ [])))))))))))))))) := by
  simp only [main, h, printMACs_eq, List.append_assoc, List.append_nil]

/-- The lines of the report of a run in which `getOSInfo` does not panic. -/
theorem main_lines (w : World) (osInfo : GoString) (h : getOSInfo w = some osInfo) :
    Lines (main w).stdout =
      [lit "=== Device Fingerprint Proof of Concept ===", lit "MAC Address(es):"]
      ++ ((getMACAddresses w).map (fun m => lit "   " ++ m)
      ++ ([lit "", lit "Motherboard/BIOS Serial Number:"] ++ (valueLines (getMotherboardSerial w)
      ++ ([lit "", lit "CPU Serial/ID:"] ++ (valueLines (getCPUSerial w)
      ++ ([lit "", lit "Drive Serial Number:"] ++ (valueLines (getDriveSerial w)
      ++ ([lit "", lit "Hostname:"] ++ (valueLines w.Hostname.1
      ++ ([lit "", lit "OS Info:"] ++ (valueLines osInfo
      ++ ([lit "", lit "UUID/Hardware ID:"] ++ (valueLines (getUUID w)
      ++ ([lit "", lit "System Manufacturer/Model:"] ++ (valueLines (getManufacturerModel w)
      ++ [lit ""]))))))))))))))) := by
  have e0 : Lines ((lit " ").intercalate [lit "=== Device Fingerprint Proof of Concept ==="])
      = [lit "=== Device Fingerprint Proof of Concept ==="] := by decide
  have e1 : Lines ((lit " ").intercalate [lit "MAC Address(es):"])
      = [lit "MAC Address(es):"] := by decide
  have e2 : Lines ((lit " ").intercalate [lit "\nMotherboard/BIOS Serial Number:"])
      = [lit "", lit "Motherboard/BIOS Serial Number:"] := by decide
  have e3 : Lines ((lit " ").intercalate [lit "\nCPU Serial/ID:"])
      = [lit "", lit "CPU Serial/ID:"] := by decide
  have e4 : Lines ((lit " ").intercalate [lit "\nDrive Serial Number:"])
      = [lit "", lit "Drive Serial Number:"] := by decide
  have e5 : Lines ((lit " ").intercalate [lit "\nHostname:"])
      = [lit "", lit "Hostname:"] := by decide
  have e6 : Lines ((lit " ").intercalate [lit "\nOS Info:"])
      = [lit "", lit "OS Info:"] := by decide
  have e7 : Lines ((lit " ").intercalate [lit "\nUUID/Hardware ID:"])
      = [lit "", lit "UUID/Hardware ID:"] := by decide
  have e8 : Lines ((lit " ").intercalate [lit "\nSystem Manufacturer/Model:"])
      = [lit "", lit "System Manufacturer/Model:"] := by decide
  have e9 : Lines [] = [lit ""] := by decide
  rw [main_stdout w osInfo h]
  rw [Lines_Println_append, Lines_Println_append, Lines_macs _ _ (getMACAddresses_no_newline w)]
  simp only [Lines_Println_append, Lines_value, e0, e1, e2, e3, e4, e5, e6, e7, e8, e9]
  rfl

theorem sublist_skip (vals hs rest : List GoString) (H : hs.Sublist rest) :
    hs.Sublist (vals ++ rest) :=
  List.sublist_append_of_sublist_right H

theorem header_step (h : GoString) (hs vals rest : List GoString) (H : hs.Sublist rest) :
    (h :: hs).Sublist ([lit "", h] ++ (vals ++ rest)) := by
  exact List.Sublist.cons _ (List.Sublist.cons₂ _ (sublist_skip vals hs rest H))

/-- When `getOSInfo` does not panic, the run ends normally and the eight
section headers are lines of the report, in order. -/
theorem main_headers_of_no_panic (w : World) (osInfo : GoString)
    (h : getOSInfo w = some osInfo) :
    (main w).panicked = false ∧ sectionHeaders.Sublist (Lines (main w).stdout) := by
  constructor
  · simp [main, h]
  · rw [main_lines w osInfo h]
    unfold sectionHeaders
    refine List.Sublist.cons _ (List.Sublist.cons₂ _ ?_)
    refine sublist_skip ((getMACAddresses w).map fun m => lit "   " ++ m) _ _ ?_
    refine header_step _ _ _ _ ?_
    refine header_step _ _ _ _ ?_
    refine header_step _ _ _ _ ?_
    refine header_step _ _ _ _ ?_
    refine header_step _ _ _ _ ?_
    refine header_step _ _ _ _ ?_
    refine header_step _ _ _ _ ?_
    exact List.nil_sublist _

/-- C7 (the code at the failing input): on linux, with lsb_release failing and
an os-release file whose line is exactly "PRETTY_NAME=", `getOSInfo` panics
after the header "OS Info:" is printed; the run ends there, and the headers
"UUID/Hardware ID:" and "System Manufacturer/Model:" are never printed. -/
theorem main_panics_before_last_headers :
    (main (oneCommandWorld "linux" "cat" ["/etc/os-release"] "PRETTY_NAME=\n")).panicked = true
      ∧ Lines (main (oneCommandWorld "linux" "cat" ["/etc/os-release"] "PRETTY_NAME=\n")).stdout
        = [lit "=== Device Fingerprint Proof of Concept ===",
           lit "MAC Address(es):", lit "   de:ad:be:ef:00:1f",
           lit "", lit "Motherboard/BIOS Serial Number:", lit "   ",
           lit "", lit "CPU Serial/ID:", lit "   Not available",
           lit "", lit "Drive Serial Number:", lit "   Not available",
           lit "", lit "Hostname:", lit "   pc",
           lit "", lit "OS Info:", lit ""]
      ∧ ¬ sectionHeaders.Sublist
          (Lines (main (oneCommandWorld "linux" "cat" ["/etc/os-release"] "PRETTY_NAME=\n")).stdout)
      := by
  decide

/-- C10 (counterexample): on a linux machine without usable interface, with
every command failing and the hostname "pc", the header "MAC Address(es):" is
followed by no value line (an empty line and the next header come next), the
line after "Hostname:" is "pc" after three spaces and not after two, and the
second line of the manufacturer/model value, "Model: ", is not indented. -/
theorem report_not_as_worded :
    Lines (main (offlineWorld "linux")).stdout
        = [lit "=== Device Fingerprint Proof of Concept ===",
           lit "MAC Address(es):",
           lit "", lit "Motherboard/BIOS Serial Number:", lit "   ",
           lit "", lit "CPU Serial/ID:", lit "   Not available",
           lit "", lit "Drive Serial Number:", lit "   Not available",
           lit "", lit "Hostname:", lit "   pc",
           lit "", lit "OS Info:", lit "   Unknown Linux OS",
           lit "", lit "UUID/Hardware ID:", lit "   ",
           lit "", lit "System Manufacturer/Model:", lit "   Manufacturer: ", lit "Model: ",
           lit ""]
      ∧ lineAfter (lit "MAC Address(es):") (Lines (main (offlineWorld "linux")).stdout)
        = some (lit "")
      ∧ lineAfter (lit "Hostname:") (Lines (main (offlineWorld "linux")).stdout)
        ≠ some (lit "  " ++ (offlineWorld "linux").Hostname.1)
      ∧ lit "  Model: " ∉ Lines (main (offlineWorld "linux")).stdout := by
  decide

/-- C10 (amended): in a run in which `getOSInfo` does not panic, the report is
the banner line followed by the eight sections in order, each but the first
after an empty line. The header "MAC Address(es):" is followed by zero or more
lines, one per collected address: three spaces and the address. Each of the
seven other headers is followed by the one or more lines of its value: the
first after three spaces (the operand of two spaces and the separator of
`Println`), the later lines of a multi-line value as they are. The report ends
with a newline. -/
theorem report_lines (w : World) (osInfo : GoString) (h : getOSInfo w = some osInfo) :
    (main w).panicked = false
      ∧ Lines (main w).stdout =
        [lit "=== Device Fingerprint Proof of Concept ===", lit "MAC Address(es):"]
        ++ ((getMACAddresses w).map (fun m => lit "   " ++ m)
        ++ ([lit "", lit "Motherboard/BIOS Serial Number:"] ++ (valueLines (getMotherboardSerial w)
        ++ ([lit "", lit "CPU Serial/ID:"] ++ (valueLines (getCPUSerial w)
        ++ ([lit "", lit "Drive Serial Number:"] ++ (valueLines (getDriveSerial w)
        ++ ([lit "", lit "Hostname:"] ++ (valueLines w.Hostname.1
        ++ ([lit "", lit "OS Info:"] ++ (valueLines osInfo
        ++ ([lit "", lit "UUID/Hardware ID:"] ++ (valueLines (getUUID w)
        ++ ([lit "", lit "System Manufacturer/Model:"] ++ (valueLines (getManufacturerModel w)
        ++ [lit ""]))))))))))))))) :=
  ⟨by simp [main, h], main_lines w osInfo h⟩

theorem report_lines_witness :
    Lines (main (oneCommandWorld "linux" "cat" ["/etc/os-release"]
        "NAME=T\nPRETTY_NAME=\"Test OS 1.0\"\n")).stdout
      = [lit "=== Device Fingerprint Proof of Concept ===",
         lit "MAC Address(es):", lit "   de:ad:be:ef:00:1f",
         lit "", lit "Motherboard/BIOS Serial Number:", lit "   ",
         lit "", lit "CPU Serial/ID:", lit "   Not available",
         lit "", lit "Drive Serial Number:", lit "   Not available",
         lit "", lit "Hostname:", lit "   pc",
         lit "", lit "OS Info:", lit "   Test OS 1.0",
         lit "", lit "UUID/Hardware ID:", lit "   ",
         lit "", lit "System Manufacturer/Model:", lit "   Manufacturer: ", lit "Model: ",
         lit ""] :=
  (report_lines
    (oneCommandWorld "linux" "cat" ["/etc/os-release"] "NAME=T\nPRETTY_NAME=\"Test OS 1.0\"\n")
    (lit "Test OS 1.0") (by decide)).2.trans (by decide)

end Fingerprint
